import Mathlib

/-!
Shallow embedding of the core grouping / mapping / selection pipeline of the
`myfamapp` repository (TypeScript), together with proofs about it.

Sources embedded:
- `src/models/index.ts` — domain model and the type guards `isImageMimeType`,
  `hasValidSharer`, `hasValidPreview`;
- `src/services/grouping.ts` — `filterImagesByMime`, `mapToSharedImage`,
  `groupBySharer`, `disambiguateDisplayNames`, `processGraphItems`;
- `src/state/selection.tsx` — `selectionReducer`, `getAllImagesFromPeople`,
  `initialState`, and the dispatch sequences performed by `loadData` /
  `refreshData`.

Modelling conventions:
- TypeScript optional fields (`x?: T`) become `Option T`; JavaScript string
  truthiness (`""` is falsy) becomes `truthyStr`.
- `localeCompare` is modelled as an abstract three-way comparison
  `lc : String → String → Int`; `Array.prototype.sort(cmp)` (stable since
  ES2019) is modelled as a stable insertion sort on the relation
  `cmp a b ≤ 0`.
- The wall clock read by `new Date().toISOString()` is passed in explicitly
  as a `now : String` argument.
-/

namespace MyFamApp

/-- JavaScript truthiness of a string: `""` is falsy, every other string truthy. -/
def truthyStr (s : String) : Bool := !s.isEmpty

/-- JavaScript truthiness of an optional string (`undefined` and `""` are falsy). -/
def truthyOptStr : Option String → Bool
  | none => false
  | some s => truthyStr s

/-! ## Domain model (`src/models/index.ts`) -/

/-- `Person` from `src/models/index.ts`. -/
structure Person where
  identifier : String
  displayName : String
  imageCount : Nat
deriving DecidableEq, Repr

/-- The denormalized `sharedBy` snapshot stored inside a `SharedImage`. -/
structure SharedBySnapshot where
  displayName : String
  identifier : String
deriving DecidableEq, Repr

/-- `SharedImage` from `src/models/index.ts`.  The nested
`preview.thumbnailUrl : string | null` field is flattened to
`previewThumbnailUrl : Option String`. -/
structure SharedImage where
  id : String
  name : String
  mimeType : String
  sharedBy : SharedBySnapshot
  previewThumbnailUrl : Option String
  dateShared : String
  webUrl : Option String
deriving DecidableEq, Repr

/-- `PeopleGrouping` from `src/models/index.ts`. -/
structure PeopleGrouping where
  person : Person
  images : List SharedImage
deriving DecidableEq, Repr

/-- The `sharedBy.user` object of a raw `GraphDriveItem`
(`displayName : string`, `id : string`, `email?: string`). -/
structure GraphUser where
  displayName : String
  id : String
  email : Option String
deriving DecidableEq, Repr

/-- The `sharedBy` object of a raw `GraphDriveItem` (`user?: {...}`). -/
structure GraphSharedBy where
  user : Option GraphUser
deriving DecidableEq, Repr

/-- One entry of the `thumbnails` array of a raw `GraphDriveItem`; each of
`small`/`medium`/`large` is an optional object holding a `url`. -/
structure GraphThumbnailSet where
  small : Option String
  medium : Option String
  large : Option String
deriving DecidableEq, Repr

/-- `GraphDriveItem` from `src/models/index.ts`.  `file?: { mimeType: string }`
is flattened to `fileMimeType : Option String`; `shared?: { sharedDateTime }`
to `sharedDateTime : Option String`. -/
structure GraphDriveItem where
  id : String
  name : String
  fileMimeType : Option String
  sharedBy : Option GraphSharedBy
  sharedDateTime : Option String
  thumbnails : Option (List GraphThumbnailSet)
  webUrl : Option String
deriving DecidableEq, Repr

/-- `isImageMimeType` from `src/models/index.ts`:
`mimeType.startsWith('image/')`.  The prefix test is expressed over the
underlying character list (extensionally `String.startsWith`, but it
evaluates by kernel reduction). -/
def isImageMimeType (mimeType : String) : Bool :=
  "image/".data.isPrefixOf mimeType.data

/-- `hasValidSharer` from `src/models/index.ts`:
`!!(item.sharedBy?.user?.displayName && (item.sharedBy.user.id || item.sharedBy.user.email))`. -/
def hasValidSharer (item : GraphDriveItem) : Bool :=
  match item.sharedBy with
  | none => false
  | some sb =>
    match sb.user with
    | none => false
    | some u => truthyStr u.displayName && (truthyStr u.id || truthyOptStr u.email)

/-- `hasValidPreview` from `src/models/index.ts`:
`!!(item.thumbnails && item.thumbnails.length > 0 && item.thumbnails[0].medium?.url)`. -/
def hasValidPreview (item : GraphDriveItem) : Bool :=
  match item.thumbnails with
  | none => false
  | some ts =>
    match ts with
    | [] => false
    | t :: _ => truthyOptStr t.medium

/-! ## Mapping and filtering (`src/services/grouping.ts`) -/

/-- The filter predicate of `filterImagesByMime`:
`item.file?.mimeType && isImageMimeType(item.file.mimeType)`. -/
def imageFilterPred (item : GraphDriveItem) : Bool :=
  match item.fileMimeType with
  | none => false
  | some m => truthyStr m && isImageMimeType m

/-- `filterImagesByMime` from `src/services/grouping.ts`. -/
def filterImagesByMime (items : List GraphDriveItem) : List GraphDriveItem :=
  items.filter imageFilterPred

/-- The identifier chosen by `mapToSharedImage`:
`sharer.email || sharer.id` (empty/absent email falls back to `id`). -/
def sharerIdentifier (u : GraphUser) : String :=
  match u.email with
  | some e => if truthyStr e then e else u.id
  | none => u.id

/-- `item.thumbnails![0].medium!.url` as read by `mapToSharedImage` when
`hasValidPreview` holds. -/
def firstMediumUrl (item : GraphDriveItem) : Option String :=
  match item.thumbnails with
  | some (t :: _) => t.medium
  | _ => none

/-- `mapToSharedImage` from `src/services/grouping.ts`.  `now` stands for
`new Date().toISOString()`. -/
def mapToSharedImage (now : String) (item : GraphDriveItem) : Option SharedImage :=
  if !truthyStr item.name || !truthyOptStr item.fileMimeType || !hasValidSharer item then
    none
  else
    match item.sharedBy with
    | none => none
    | some sb =>
      match sb.user with
      | none => none
      | some u =>
        some
          { id := item.id
            name := item.name
            mimeType := item.fileMimeType.getD ""
            sharedBy :=
              { displayName := u.displayName
                identifier := sharerIdentifier u }
            previewThumbnailUrl :=
              if hasValidPreview item then firstMediumUrl item else none
            dateShared :=
              match item.sharedDateTime with
              | some d => if truthyStr d then d else now
              | none => now
            webUrl := item.webUrl }

/-! ## Grouping and disambiguation (`src/services/grouping.ts`) -/

/-- One step of building `groupBySharer`'s insertion-ordered `Map` key list:
`if (!groups.has(identifier)) groups.set(identifier, [])`. -/
def keysStep (acc : List String) (img : SharedImage) : List String :=
  if acc.contains img.sharedBy.identifier then acc
  else acc ++ [img.sharedBy.identifier]

/-- Keys of the insertion-ordered `Map` built by `groupBySharer`: the distinct
`sharedBy.identifier` values in order of first occurrence. -/
def keysInOrder (images : List SharedImage) : List String :=
  images.foldl keysStep []

/-- The group stored under key `k` by `groupBySharer`'s `Map`: the images with
that identifier, in input order. -/
def groupFor (images : List SharedImage) (k : String) : List SharedImage :=
  images.filter (fun img => img.sharedBy.identifier == k)

/-- One `PeopleGrouping` as built by `groupBySharer` from the group under key
`k`; the display name is read off the group's first image
(`groupImages[0]`). -/
def mkGrouping (images : List SharedImage) (k : String) : PeopleGrouping :=
  let groupImages := groupFor images k
  let dn :=
    match groupImages with
    | [] => ""
    | first :: _ => first.sharedBy.displayName
  { person := { identifier := k, displayName := dn, imageCount := groupImages.length }
    images := groupImages }

/-- Stable insert used to model `Array.prototype.sort(cmp)`: `a` is placed
before the first element `b` with `le a b`, after everything it does not
precede-or-tie. -/
def orderedInsertB {α : Type} (le : α → α → Bool) (a : α) : List α → List α
  | [] => [a]
  | b :: l => if le a b then a :: b :: l else b :: orderedInsertB le a l

/-- Stable insertion sort modelling `Array.prototype.sort(cmp)` with
`le a b = (cmp a b ≤ 0)` (ES2019 sort is required to be stable). -/
def insertionSortB {α : Type} (le : α → α → Bool) : List α → List α
  | [] => []
  | a :: l => orderedInsertB le a (insertionSortB le l)

/-- The comparator of `groupBySharer`'s final sort:
`(a, b) => a.person.displayName.localeCompare(b.person.displayName)`,
turned into the boolean "keep order" relation `cmp ≤ 0`. -/
def byNameLe (lc : String → String → Int) (a b : PeopleGrouping) : Bool :=
  lc a.person.displayName b.person.displayName ≤ 0

/-- `groupBySharer` from `src/services/grouping.ts`, parametrized by the
`localeCompare` comparison `lc`. -/
def groupBySharer (lc : String → String → Int) (images : List SharedImage) :
    List PeopleGrouping :=
  insertionSortB (byNameLe lc) ((keysInOrder images).map (mkGrouping images))

/-- The number of groupings carrying a given display name — the `nameCount`
map of `disambiguateDisplayNames`. -/
def nameCount (groupings : List PeopleGrouping) (name : String) : Nat :=
  (groupings.filter (fun g => g.person.displayName == name)).length

/-- The rewritten display name for a duplicate:
`` `${person.displayName} (${person.identifier})` ``. -/
def suffixedName (p : Person) : String :=
  p.displayName ++ " (" ++ p.identifier ++ ")"

/-- The arrow function mapped by `disambiguateDisplayNames` over the grouping
list (which closes over the whole list through its `nameCount` map): rewrite
the display name when it is a duplicate, return the grouping unchanged
otherwise. -/
def disambiguateOne (groupings : List PeopleGrouping) (g : PeopleGrouping) : PeopleGrouping :=
  if nameCount groupings g.person.displayName > 1 then
    { g with person := { g.person with displayName := suffixedName g.person } }
  else g

/-- `disambiguateDisplayNames` from `src/services/grouping.ts`. -/
def disambiguateDisplayNames (groupings : List PeopleGrouping) : List PeopleGrouping :=
  groupings.map (disambiguateOne groupings)

/-! ## Full pipeline (`processGraphItems`) -/

/-- Result record of `processGraphItems`. -/
structure ProcessResult where
  groupings : List PeopleGrouping
  allPeople : List Person
  totalImages : Nat
  errors : List String
deriving DecidableEq, Repr

/-- The `for (const item of imageItems)` loop of `processGraphItems`: each item
either maps to a `SharedImage` or contributes
`` `Failed to process item: ${item.id}` `` to the error list, in input
order. -/
def mapItemsLoop (now : String) : List GraphDriveItem → List SharedImage × List String
  | [] => ([], [])
  | item :: rest =>
    let tail := mapItemsLoop now rest
    match mapToSharedImage now item with
    | some mapped => (mapped :: tail.1, tail.2)
    | none => (tail.1, ("Failed to process item: " ++ item.id) :: tail.2)

/-- `processGraphItems` from `src/services/grouping.ts` (the `catch` branch is
unreachable for this pure pipeline and is not modelled). -/
def processGraphItems (lc : String → String → Int) (now : String)
    (rawItems : List GraphDriveItem) : ProcessResult :=
  let imageItems := filterImagesByMime rawItems
  let loop := mapItemsLoop now imageItems
  let sharedImages := loop.1
  let errors := loop.2
  let rawGroupings := groupBySharer lc sharedImages
  let groupings := disambiguateDisplayNames rawGroupings
  { groupings := groupings
    allPeople := groupings.map (·.person)
    totalImages := sharedImages.length
    errors := errors }

/-! ## Selection state engine (`src/state/selection.tsx`) -/

/-- `SelectionState` from `src/models/index.ts`. -/
structure SelectionState where
  selectedPerson : Option Person
  displayImages : List SharedImage
  availablePeople : List Person
  isLoading : Bool
  error : Option String
deriving DecidableEq, Repr

/-- The `SelectionAction` union type of `src/state/selection.tsx`. -/
inductive SelectionAction where
  | setLoading (payload : Bool)
  | setError (payload : Option String)
  | setData (people : List Person) (images : List SharedImage)
  | selectPersonAct (payload : Option Person)
  | refreshDataAct
deriving DecidableEq, Repr

/-- `initialState` from `src/state/selection.tsx`. -/
def initialState : SelectionState :=
  { selectedPerson := none
    displayImages := []
    availablePeople := []
    isLoading := false
    error := none }

/-- `getAllImagesFromPeople` from `src/state/selection.tsx` — the source
returns the empty array (its comment calls it "a simplified version"). -/
def getAllImagesFromPeople (_people : List Person) : List SharedImage :=
  []

/-- `selectionReducer` from `src/state/selection.tsx`. -/
def selectionReducer (state : SelectionState) (action : SelectionAction) : SelectionState :=
  match action with
  | .setLoading b => { state with isLoading := b }
  | .setError msg => { state with error := msg, isLoading := false }
  | .setData people images =>
    let filteredImages :=
      match state.selectedPerson with
      | some cur => images.filter (fun img => img.sharedBy.identifier == cur.identifier)
      | none => images
    { state with
        availablePeople := people
        displayImages := filteredImages
        isLoading := false
        error := none }
  | .selectPersonAct p =>
    let allImages := getAllImagesFromPeople state.availablePeople
    let displayImages :=
      match p with
      | some sp => allImages.filter (fun img => img.sharedBy.identifier == sp.identifier)
      | none => allImages
    { state with selectedPerson := p, displayImages := displayImages }
  | .refreshDataAct => { state with isLoading := true, error := none }

/-- Dispatching a sequence of actions through the reducer, in order. -/
def applyActions (s : SelectionState) (actions : List SelectionAction) : SelectionState :=
  actions.foldl selectionReducer s

/-- Outcome of `fetchSharedItems` as observed by `loadData`: either a raw item
list or an error message. -/
inductive FetchResult where
  | ok (items : List GraphDriveItem)
  | failed (msg : String)
deriving DecidableEq, Repr

/-- The flattening loop of `loadData`:
`for (const grouping of processed.groupings) allImages.push(...grouping.images)`. -/
def flattenGroupings (groupings : List PeopleGrouping) : List SharedImage :=
  groupings.foldl (fun acc g => acc ++ g.images) []

/-- The dispatch sequence performed by one call of `loadData` in
`src/state/selection.tsx`, given the outcome of its `fetchSharedItems`
call: `SET_LOADING true` first, then either `SET_ERROR` or
`SET_DATA { people, images }` computed through `processGraphItems`. -/
def loadDataActions (lc : String → String → Int) (now : String) (r : FetchResult) :
    List SelectionAction :=
  match r with
  | .failed msg => [.setLoading true, .setError (some msg)]
  | .ok items =>
    let processed := processGraphItems lc now items
    [.setLoading true,
     .setData processed.allPeople (flattenGroupings processed.groupings)]

/-- The dispatch sequence performed by one call of `refreshData`:
`REFRESH_DATA`, then the `loadData` sequence. -/
def refreshDataActions (lc : String → String → Int) (now : String) (r : FetchResult) :
    List SelectionAction :=
  .refreshDataAct :: loadDataActions lc now r

/-! ## Concrete fixtures

Small concrete values used by witnesses, counterexamples and bug evaluations.
`lcByLength` is a concrete total comparison standing in for `localeCompare`
in closed statements (it compares display names by length, which is a total
preorder, so the sorting hypotheses of the general theorems hold for it). -/

/-- A concrete three-way string comparison (by length); total and transitive,
used to instantiate the abstract `localeCompare` parameter in closed
statements. -/
def lcByLength (a b : String) : Int :=
  (a.length : Int) - (b.length : Int)

/-- A raw Graph item with the given id, name, MIME type and sharer. -/
def rawItem (id name mime dn uid : String) : GraphDriveItem :=
  { id := id
    name := name
    fileMimeType := some mime
    sharedBy := some { user := some { displayName := dn, id := uid, email := none } }
    sharedDateTime := some "2025-01-01T00:00:00Z"
    thumbnails := none
    webUrl := none }

/-- A valid image item shared by Alice. -/
def itemAlice : GraphDriveItem := rawItem "1" "a.jpg" "image/jpeg" "Alice" "a"

/-- A valid image item shared by Bob. -/
def itemBob : GraphDriveItem := rawItem "2" "b.jpg" "image/png" "Bob" "b"

/-- A non-image item (PDF) with a perfectly valid name and sharer. -/
def pdfItem : GraphDriveItem := rawItem "3" "doc.pdf" "application/pdf" "John" "j1"

/-- An image item whose sharer has a present display name but an empty-string
`id` and no `email`. -/
def emptyIdItem : GraphDriveItem :=
  { id := "4"
    name := "a.jpg"
    fileMimeType := some "image/jpeg"
    sharedBy := some { user := some { displayName := "John", id := "", email := none } }
    sharedDateTime := none
    thumbnails := none
    webUrl := none }

/-- The `SharedImage` for Alice's item. -/
def imgAlice : SharedImage :=
  { id := "1"
    name := "a.jpg"
    mimeType := "image/jpeg"
    sharedBy := { displayName := "Alice", identifier := "a" }
    previewThumbnailUrl := none
    dateShared := "2025-01-01T00:00:00Z"
    webUrl := none }

/-- The `SharedImage` for Bob's item. -/
def imgBob : SharedImage :=
  { id := "2"
    name := "b.jpg"
    mimeType := "image/png"
    sharedBy := { displayName := "Bob", identifier := "b" }
    previewThumbnailUrl := none
    dateShared := "2025-01-01T00:00:00Z"
    webUrl := none }

/-- Alice as a `Person`. -/
def personAlice : Person := { identifier := "a", displayName := "Alice", imageCount := 1 }

/-- Bob as a `Person`. -/
def personBob : Person := { identifier := "b", displayName := "Bob", imageCount := 1 }

/-- A state after a successful load of Alice's image, with no selection. -/
def loadedState : SelectionState :=
  { selectedPerson := none
    displayImages := [imgAlice]
    availablePeople := [personAlice]
    isLoading := false
    error := none }

/-- A state after a successful load of Alice's image, with Alice selected and
a refresh in flight. -/
def selectedAliceState : SelectionState :=
  { selectedPerson := some personAlice
    displayImages := [imgAlice]
    availablePeople := [personAlice]
    isLoading := true
    error := none }

/-- A one-image grouping with the given display name and identifier, as
`groupBySharer` would build it from one image shared by that person. -/
def mkOnePersonGrouping (name id : String) : PeopleGrouping :=
  let img : SharedImage :=
    { id := "img-" ++ id
      name := "p.jpg"
      mimeType := "image/jpeg"
      sharedBy := { displayName := name, identifier := id }
      previewThumbnailUrl := none
      dateShared := "2025-01-01T00:00:00Z"
      webUrl := none }
  { person := { identifier := id, displayName := name, imageCount := 1 }
    images := [img] }

/-- Groupings with pairwise distinct identifiers where one person's real
display name happens to equal another person's name with its identifier
suffix already attached. -/
def collidingGroupings : List PeopleGrouping :=
  [mkOnePersonGrouping "John (x)" "z",
   mkOnePersonGrouping "John" "x",
   mkOnePersonGrouping "John" "y"]

/-- The same three people, listed with the suffix-colliding person last. -/
def collidingGroupingsLast : List PeopleGrouping :=
  [mkOnePersonGrouping "John" "x",
   mkOnePersonGrouping "John" "y",
   mkOnePersonGrouping "John (x)" "z"]

/-! ## Helper lemmas: the stable sort model -/

theorem mem_orderedInsertB {α : Type} (le : α → α → Bool) (a b : α) :
    ∀ l : List α, (b ∈ orderedInsertB le a l ↔ b = a ∨ b ∈ l)
  | [] => by simp [orderedInsertB]
  | c :: l => by
    by_cases h : le a c = true
    · rw [orderedInsertB, if_pos h]
      simp
    · rw [orderedInsertB, if_neg h]
      rw [List.mem_cons, mem_orderedInsertB le a b l, List.mem_cons]
      tauto

theorem orderedInsertB_perm {α : Type} (le : α → α → Bool) (a : α) :
    ∀ l : List α, (orderedInsertB le a l).Perm (a :: l)
  | [] => List.Perm.refl _
  | b :: l => by
    by_cases h : le a b = true
    · rw [orderedInsertB, if_pos h]
    · rw [orderedInsertB, if_neg h]
      exact ((orderedInsertB_perm le a l).cons b).trans (List.Perm.swap a b l)

theorem insertionSortB_perm {α : Type} (le : α → α → Bool) :
    ∀ l : List α, (insertionSortB le l).Perm l
  | [] => List.Perm.refl _
  | a :: l => by
    rw [insertionSortB]
    exact (orderedInsertB_perm le a (insertionSortB le l)).trans
      ((insertionSortB_perm le l).cons a)

theorem sorted_orderedInsertB {α : Type} (le : α → α → Bool)
    (htot : ∀ x y, le x y = true ∨ le y x = true)
    (htrans : ∀ x y z, le x y = true → le y z = true → le x z = true)
    (a : α) : ∀ l : List α, l.Pairwise (fun x y => le x y = true) →
      (orderedInsertB le a l).Pairwise (fun x y => le x y = true)
  | [], _ => by simp [orderedInsertB]
  | b :: l, hp => by
    rcases List.pairwise_cons.mp hp with ⟨hb, hl⟩
    by_cases h : le a b = true
    · rw [orderedInsertB, if_pos h]
      refine List.pairwise_cons.mpr ⟨?_, hp⟩
      intro x hx
      rcases List.mem_cons.mp hx with rfl | hx
      · exact h
      · exact htrans a b x h (hb x hx)
    · rw [orderedInsertB, if_neg h]
      refine List.pairwise_cons.mpr ⟨?_, sorted_orderedInsertB le htot htrans a l hl⟩
      intro x hx
      rcases (mem_orderedInsertB le a x l).mp hx with hxa | hx
      · rcases htot a b with hab | hba
        · exact absurd hab h
        · rw [hxa]
          exact hba
      · exact hb x hx

theorem sorted_insertionSortB {α : Type} (le : α → α → Bool)
    (htot : ∀ x y, le x y = true ∨ le y x = true)
    (htrans : ∀ x y z, le x y = true → le y z = true → le x z = true) :
    ∀ l : List α, (insertionSortB le l).Pairwise (fun x y => le x y = true)
  | [] => List.Pairwise.nil
  | a :: l => by
    rw [insertionSortB]
    exact sorted_orderedInsertB le htot htrans a (insertionSortB le l)
      (sorted_insertionSortB le htot htrans l)

/-! ## Helper lemmas: the grouping key list -/

theorem foldl_keysStep_mem :
    ∀ (images : List SharedImage) (acc : List String) (k : String),
      (k ∈ images.foldl keysStep acc ↔
        k ∈ acc ∨ k ∈ images.map (fun img => img.sharedBy.identifier))
  | [], acc, k => by simp
  | img :: images, acc, k => by
    rw [List.foldl_cons, foldl_keysStep_mem images (keysStep acc img) k]
    unfold keysStep
    by_cases h : acc.contains img.sharedBy.identifier = true
    · rw [if_pos h]
      have : img.sharedBy.identifier ∈ acc := by
        simpa using h
      simp only [List.map_cons, List.mem_cons]
      constructor
      · tauto
      · rintro (hk | rfl | hk) <;> tauto
    · rw [if_neg h]
      simp only [List.mem_append, List.mem_singleton, List.map_cons, List.mem_cons]
      tauto

theorem mem_keysInOrder (images : List SharedImage) (k : String) :
    k ∈ keysInOrder images ↔ k ∈ images.map (fun img => img.sharedBy.identifier) := by
  rw [keysInOrder, foldl_keysStep_mem]
  simp

theorem foldl_keysStep_nodup :
    ∀ (images : List SharedImage) (acc : List String), acc.Nodup →
      (images.foldl keysStep acc).Nodup
  | [], _, h => h
  | img :: images, acc, h => by
    rw [List.foldl_cons]
    refine foldl_keysStep_nodup images (keysStep acc img) ?_
    unfold keysStep
    by_cases hc : acc.contains img.sharedBy.identifier = true
    · rwa [if_pos hc]
    · rw [if_neg hc]
      have : img.sharedBy.identifier ∉ acc := by
        simpa using hc
      simp [List.nodup_append, h, this]

theorem nodup_keysInOrder (images : List SharedImage) : (keysInOrder images).Nodup :=
  foldl_keysStep_nodup images [] List.nodup_nil

/-! ## Helper lemmas: grouping -/

theorem mem_groupBySharer (lc : String → String → Int) (images : List SharedImage)
    (g : PeopleGrouping) :
    g ∈ groupBySharer lc images ↔
      ∃ k ∈ keysInOrder images, g = mkGrouping images k := by
  rw [groupBySharer]
  rw [(insertionSortB_perm (byNameLe lc)
        ((keysInOrder images).map (mkGrouping images))).mem_iff]
  simp only [List.mem_map]
  constructor
  · rintro ⟨k, hk, rfl⟩
    exact ⟨k, hk, rfl⟩
  · rintro ⟨k, hk, rfl⟩
    exact ⟨k, hk, rfl⟩

theorem mkGrouping_identifier (images : List SharedImage) (k : String) :
    (mkGrouping images k).person.identifier = k := rfl

theorem mkGrouping_images (images : List SharedImage) (k : String) :
    (mkGrouping images k).images = groupFor images k := rfl

theorem mkGrouping_imageCount (images : List SharedImage) (k : String) :
    (mkGrouping images k).person.imageCount = (groupFor images k).length := rfl

theorem mkGrouping_displayName (images : List SharedImage) (k : String) :
    (mkGrouping images k).person.displayName
      = (match groupFor images k with
         | [] => ""
         | first :: _ => first.sharedBy.displayName) := rfl

theorem groupFor_ne_nil_of_mem_keys (images : List SharedImage) (k : String)
    (hk : k ∈ keysInOrder images) : groupFor images k ≠ [] := by
  rw [mem_keysInOrder] at hk
  rcases List.mem_map.mp hk with ⟨img, himg, hid⟩
  intro hnil
  have : img ∈ groupFor images k := by
    rw [groupFor, List.mem_filter]
    exact ⟨himg, by simp [hid]⟩
  rw [hnil] at this
  exact List.not_mem_nil img this

/-! ## Helper lemmas: the mapping loop of `processGraphItems` -/

theorem mapItemsLoop_fst (now : String) :
    ∀ l : List GraphDriveItem,
      (mapItemsLoop now l).1 = l.filterMap (mapToSharedImage now)
  | [] => rfl
  | item :: l => by
    rw [mapItemsLoop, List.filterMap_cons]
    cases h : mapToSharedImage now item <;>
      simp [h, mapItemsLoop_fst now l]

theorem mapItemsLoop_snd (now : String) :
    ∀ l : List GraphDriveItem,
      (mapItemsLoop now l).2 = l.filterMap
        (fun item => if (mapToSharedImage now item).isSome then none
                     else some ("Failed to process item: " ++ item.id))
  | [] => rfl
  | item :: l => by
    rw [mapItemsLoop, List.filterMap_cons]
    cases h : mapToSharedImage now item <;>
      simp [h, mapItemsLoop_snd now l]

/-! ## Helper lemmas: disambiguation -/

theorem disambiguateOne_images (gs : List PeopleGrouping) (g : PeopleGrouping) :
    (disambiguateOne gs g).images = g.images := by
  unfold disambiguateOne
  split <;> rfl

theorem disambiguateOne_identifier (gs : List PeopleGrouping) (g : PeopleGrouping) :
    (disambiguateOne gs g).person.identifier = g.person.identifier := by
  unfold disambiguateOne
  split <;> rfl

theorem disambiguateOne_of_unique (gs : List PeopleGrouping) (g : PeopleGrouping)
    (h : nameCount gs g.person.displayName ≤ 1) : disambiguateOne gs g = g := by
  unfold disambiguateOne
  rw [if_neg]
  omega

theorem disambiguateOne_of_dup (gs : List PeopleGrouping) (g : PeopleGrouping)
    (h : 1 < nameCount gs g.person.displayName) :
    (disambiguateOne gs g).person.displayName = suffixedName g.person := by
  unfold disambiguateOne
  rw [if_pos h]

/-- A list containing two different elements has at least two entries. -/
theorem two_le_length_of_mem_ne {α : Type} {l : List α} {a b : α}
    (ha : a ∈ l) (hb : b ∈ l) (hab : a ≠ b) : 2 ≤ l.length := by
  cases l with
  | nil => cases ha
  | cons c t =>
    rcases List.mem_cons.mp ha with rfl | hat
    · rcases List.mem_cons.mp hb with rfl | hbt
      · exact absurd rfl hab
      · have := List.length_pos_of_mem hbt
        simp only [List.length_cons]
        omega
    · have := List.length_pos_of_mem hat
      simp only [List.length_cons]
      omega

theorem nameCount_two_le (gs : List PeopleGrouping) (g₁ g₂ : PeopleGrouping)
    (h₁ : g₁ ∈ gs) (h₂ : g₂ ∈ gs) (hne : g₁ ≠ g₂)
    (hname : g₁.person.displayName = g₂.person.displayName) :
    2 ≤ nameCount gs g₁.person.displayName := by
  have m₁ : g₁ ∈ gs.filter (fun g => g.person.displayName == g₁.person.displayName) := by
    rw [List.mem_filter]
    exact ⟨h₁, by simp⟩
  have m₂ : g₂ ∈ gs.filter (fun g => g.person.displayName == g₁.person.displayName) := by
    rw [List.mem_filter]
    exact ⟨h₂, by simp [hname]⟩
  exact two_le_length_of_mem_ne m₁ m₂ hne

/-- Appending the same left part and a final `")"`, different middles give
different strings: used to show two identifier suffixes cannot collide. -/
theorem suffixedName_inj (p q : Person)
    (hname : p.displayName = q.displayName)
    (hid : p.identifier ≠ q.identifier) :
    suffixedName p ≠ suffixedName q := by
  unfold suffixedName
  rw [hname]
  intro h
  apply hid
  have hdata : (q.displayName ++ " (" ++ p.identifier ++ ")").data
      = (q.displayName ++ " (" ++ q.identifier ++ ")").data := by
    rw [h]
  simp only [String.data_append] at hdata
  rw [List.append_assoc, List.append_assoc, List.append_assoc, List.append_assoc] at hdata
  have h₂ := List.append_cancel_left hdata
  have h₃ := List.append_cancel_left h₂
  have h₄ := List.append_cancel_right h₃
  exact congrArg String.mk h₄

/-! ## Claim C1 -/

/-- C1 (code bug): the claim says `selectPerson(p)` filters the loaded image
set and `selectPerson(null)` shows the full set, but `SELECT_PERSON` rebuilds
its image list with `getAllImagesFromPeople`, a stub that always returns the
empty array, so `displayImages` becomes empty for every state and every
selection — including `null` on a state that displays loaded images. -/
theorem selectPerson_always_empties_display (s : SelectionState) (p : Option Person) :
    (selectionReducer s (SelectionAction.selectPersonAct p)).displayImages = [] := by
  cases p <;> simp [selectionReducer, getAllImagesFromPeople]

/-! ## Claim C2 -/

/-- C2 counterexample: with Alice selected and a refresh delivering data that
contains only Bob's image, `SET_DATA` leaves `displayImages` empty instead of
falling back to the full (unfiltered) new image list `[imgBob]`; the stale
selection is also retained. -/
theorem setData_vanished_selection_keeps_filter_eval :
    (selectionReducer selectedAliceState (.setData [personBob] [imgBob])).displayImages = []
    ∧ (selectionReducer selectedAliceState (.setData [personBob] [imgBob])).displayImages
        ≠ [imgBob]
    ∧ (selectionReducer selectedAliceState (.setData [personBob] [imgBob])).selectedPerson
        = some personAlice := by
  decide

/-- C2 (amended): after `SET_DATA` the selection is retained and
`displayImages` is recomputed as the new images filtered by the retained
person's identifier — so if the selected person still exists the filtered
view is preserved, and if the selected person disappeared from the new data
`displayImages` is the empty list, not the full set. -/
theorem setData_recomputes_against_retained_selection (s : SelectionState)
    (people : List Person) (images : List SharedImage) (cur : Person)
    (hsel : s.selectedPerson = some cur) :
    (selectionReducer s (.setData people images)).selectedPerson = some cur
    ∧ (selectionReducer s (.setData people images)).availablePeople = people
    ∧ (selectionReducer s (.setData people images)).displayImages
        = images.filter (fun img => img.sharedBy.identifier == cur.identifier)
    ∧ ((∀ img ∈ images, img.sharedBy.identifier ≠ cur.identifier) →
        (selectionReducer s (.setData people images)).displayImages = []) := by
  refine ⟨by simp [selectionReducer, hsel], rfl, by simp [selectionReducer, hsel], ?_⟩
  intro hgone
  simp only [selectionReducer, hsel]
  rw [List.filter_eq_nil_iff]
  intro img himg
  simpa using hgone img himg

/-- C2 witness: the amended theorem applied to the concrete vanished-person
refresh. -/
theorem setData_recomputes_witness :
    (selectionReducer selectedAliceState (.setData [personBob] [imgBob])).displayImages = [] :=
  (setData_recomputes_against_retained_selection selectedAliceState [personBob] [imgBob]
    personAlice rfl).2.2.2 (by decide)

/-! ## Claim C3 -/

/-- C3 counterexample: an item that passes the image filter, has a name, and
whose sharer has the display name "John" but an empty-string `id` and no
`email`, is NOT mapped — `mapToSharedImage` returns the invalid sentinel,
because `hasValidSharer` requires a non-empty id or email in addition to the
display name; the display name is never used as a fallback identity. -/
theorem emptyId_sharer_not_mapped_eval :
    mapToSharedImage "2025-01-01T00:00:00Z" emptyIdItem = none
    ∧ emptyIdItem ∈ filterImagesByMime [emptyIdItem]
    ∧ truthyStr emptyIdItem.name = true
    ∧ emptyIdItem.sharedBy
        = some { user := some { displayName := "John", id := "", email := none } } := by
  decide

/-- C3 (amended): for every raw item that passes the image filter, mapping to
a `SharedImage` succeeds iff the item's name is present AND the sharer has
both a display name and a non-empty identifier (id or email) — which is
exactly `hasValidSharer`; otherwise mapping returns the invalid sentinel. -/
theorem mapToSharedImage_isSome_iff (now : String) (items : List GraphDriveItem)
    (item : GraphDriveItem) (h : item ∈ filterImagesByMime items) :
    (mapToSharedImage now item).isSome = (truthyStr item.name && hasValidSharer item) := by
  have hmime : truthyOptStr item.fileMimeType = true := by
    rw [filterImagesByMime, List.mem_filter] at h
    rcases h with ⟨-, hpred⟩
    unfold imageFilterPred at hpred
    cases hf : item.fileMimeType with
    | none => rw [hf] at hpred; cases hpred
    | some m =>
      rw [hf] at hpred
      simp only [Bool.and_eq_true] at hpred
      exact hpred.1
  cases hn : truthyStr item.name with
  | false => simp [mapToSharedImage, hn]
  | true =>
    cases hs : hasValidSharer item with
    | false => simp [mapToSharedImage, hn, hs, hmime]
    | true =>
      have hs' := hs
      unfold hasValidSharer at hs'
      cases hsb : item.sharedBy with
      | none => rw [hsb] at hs'; cases hs'
      | some sb =>
        rw [hsb] at hs'
        have hs'' : (match sb.user with
            | none => false
            | some u =>
              truthyStr u.displayName && (truthyStr u.id || truthyOptStr u.email)) = true := hs'
        cases hu : sb.user with
        | none => rw [hu] at hs''; cases hs''
        | some u => simp [mapToSharedImage, hn, hs, hmime, hsb, hu]

/-- C3 witness: the amended theorem applied to a concrete valid item. -/
theorem mapToSharedImage_isSome_iff_witness :
    (mapToSharedImage "t" itemAlice).isSome
      = (truthyStr itemAlice.name && hasValidSharer itemAlice) :=
  mapToSharedImage_isSome_iff "t" [itemAlice] itemAlice (by decide)

/-! ## Claim C4 -/

/-- C4: for every image list and every total, transitive `localeCompare`
comparison `lc`, `groupBySharer` partitions the images into groups keyed by
`sharedBy.identifier` (each group is exactly the input's images with that
identifier, in input order, and identifiers are pairwise distinct across
groups — never keyed by display name), takes each group's display name and
count from the group's first encountered image, and returns the groupings
sorted by display name ascending under `lc`. -/
theorem groupBySharer_spec (lc : String → String → Int) (images : List SharedImage)
    (htrans : ∀ a b c : String, lc a b ≤ 0 → lc b c ≤ 0 → lc a c ≤ 0)
    (htot : ∀ a b : String, lc a b ≤ 0 ∨ lc b a ≤ 0) :
    (∀ g ∈ groupBySharer lc images,
        g.images = images.filter (fun img => img.sharedBy.identifier == g.person.identifier))
    ∧ (∀ img ∈ images, ∃ g ∈ groupBySharer lc images,
        g.person.identifier = img.sharedBy.identifier)
    ∧ (groupBySharer lc images).Pairwise
        (fun g₁ g₂ => g₁.person.identifier ≠ g₂.person.identifier)
    ∧ (∀ g ∈ groupBySharer lc images, ∃ first rest,
        g.images = first :: rest
        ∧ g.person.displayName = first.sharedBy.displayName
        ∧ g.person.imageCount = g.images.length)
    ∧ (groupBySharer lc images).Pairwise
        (fun g₁ g₂ => lc g₁.person.displayName g₂.person.displayName ≤ 0) := by
  have hperm := insertionSortB_perm (byNameLe lc)
    ((keysInOrder images).map (mkGrouping images))
  refine ⟨?_, ?_, ?_, ?_, ?_⟩
  · intro g hg
    rcases (mem_groupBySharer lc images g).mp hg with ⟨k, _, rfl⟩
    rfl
  · intro img himg
    have hk : img.sharedBy.identifier ∈ keysInOrder images := by
      rw [mem_keysInOrder]
      exact List.mem_map.mpr ⟨img, himg, rfl⟩
    exact ⟨mkGrouping images img.sharedBy.identifier,
      (mem_groupBySharer lc images _).mpr ⟨img.sharedBy.identifier, hk, rfl⟩, rfl⟩
  · refine (List.Perm.pairwise_iff ?_ hperm).mpr ?_
    · intro x y h
      exact Ne.symm h
    · rw [List.pairwise_map]
      exact nodup_keysInOrder images
  · intro g hg
    rcases (mem_groupBySharer lc images g).mp hg with ⟨k, hk, rfl⟩
    have hne := groupFor_ne_nil_of_mem_keys images k hk
    cases hgf : groupFor images k with
    | nil => exact absurd hgf hne
    | cons first rest =>
      refine ⟨first, rest, ?_, ?_, ?_⟩
      · rw [mkGrouping_images, hgf]
      · rw [mkGrouping_displayName, hgf]
      · rw [mkGrouping_imageCount, mkGrouping_images]
  · have hs := sorted_insertionSortB (byNameLe lc)
      (fun x y => by
        unfold byNameLe
        rcases htot x.person.displayName y.person.displayName with h | h
        · exact Or.inl (decide_eq_true h)
        · exact Or.inr (decide_eq_true h))
      (fun x y z hxy hyz => by
        unfold byNameLe at *
        exact decide_eq_true
          (htrans _ _ _ (of_decide_eq_true hxy) (of_decide_eq_true hyz)))
      ((keysInOrder images).map (mkGrouping images))
    refine hs.imp ?_
    intro a b h
    exact of_decide_eq_true h

/-- C4 witness: the theorem applied to a concrete comparison (ordering display
names by length, which is total and transitive) and a concrete image list. -/
theorem groupBySharer_spec_witness :
    (groupBySharer lcByLength [imgBob, imgAlice]).Pairwise
      (fun g₁ g₂ => lcByLength g₁.person.displayName g₂.person.displayName ≤ 0) :=
  (groupBySharer_spec lcByLength [imgBob, imgAlice]
    (fun a b c hab hbc => by unfold lcByLength at *; omega)
    (fun a b => by unfold lcByLength; omega)).2.2.2.2

/-! ## Claim C5 -/

/-- C5 counterexample: three people with pairwise-distinct identifiers
`z, x, y`; the person whose real display name is "John (x)" is unambiguous
and left untouched, while the two named "John" are rewritten to "John (x)"
and "John (y)" — so the result shows two indistinguishable entries
"John (x)", refuting "afterwards no two groupings show equal displayed
names". -/
theorem disambiguation_collision_eval :
    ((disambiguateDisplayNames collidingGroupings).map (fun g => g.person.displayName))
      = ["John (x)", "John (x)", "John (y)"]
    ∧ (collidingGroupings.map (fun g => g.person.identifier)) = ["z", "x", "y"] := by
  decide

/-- C5 (amended): disambiguation maps each grouping through `disambiguateOne`;
any two groupings with distinct identifiers sharing a display name are both
rewritten to embed their own identifier and end up with distinct displayed
names, and any grouping whose name occurs only once is left untouched — but
a rewritten name may still collide with a different grouping's untouched
name, so pairwise distinctness of all displayed names is not guaranteed. -/
theorem disambiguation_renames_ambiguous (gs : List PeopleGrouping)
    (g₁ g₂ : PeopleGrouping) (h₁ : g₁ ∈ gs) (h₂ : g₂ ∈ gs)
    (hid : g₁.person.identifier ≠ g₂.person.identifier)
    (hname : g₁.person.displayName = g₂.person.displayName) :
    disambiguateDisplayNames gs = gs.map (disambiguateOne gs)
    ∧ (disambiguateOne gs g₁).person.displayName = suffixedName g₁.person
    ∧ (disambiguateOne gs g₂).person.displayName = suffixedName g₂.person
    ∧ (disambiguateOne gs g₁).person.displayName
        ≠ (disambiguateOne gs g₂).person.displayName
    ∧ (∀ g ∈ gs, nameCount gs g.person.displayName ≤ 1 → disambiguateOne gs g = g) := by
  have hne : g₁ ≠ g₂ := fun h => hid (by rw [h])
  have hcount₁ : 1 < nameCount gs g₁.person.displayName :=
    lt_of_lt_of_le (by norm_num) (nameCount_two_le gs g₁ g₂ h₁ h₂ hne hname)
  have hcount₂ : 1 < nameCount gs g₂.person.displayName := by
    rw [← hname]
    exact hcount₁
  refine ⟨rfl, disambiguateOne_of_dup gs g₁ hcount₁,
    disambiguateOne_of_dup gs g₂ hcount₂, ?_, ?_⟩
  · rw [disambiguateOne_of_dup gs g₁ hcount₁, disambiguateOne_of_dup gs g₂ hcount₂]
    exact suffixedName_inj g₁.person g₂.person hname hid
  · exact fun g _ h => disambiguateOne_of_unique gs g h

/-- C5 witness: the amended theorem applied to two concrete groupings that
share the display name "John" under distinct identifiers. -/
theorem disambiguation_renames_witness :
    (disambiguateOne collidingGroupingsLast
        (mkOnePersonGrouping "John" "x")).person.displayName
      ≠ (disambiguateOne collidingGroupingsLast
        (mkOnePersonGrouping "John" "y")).person.displayName :=
  (disambiguation_renames_ambiguous collidingGroupingsLast
    (mkOnePersonGrouping "John" "x") (mkOnePersonGrouping "John" "y")
    (by decide) (by decide) (by decide) rfl).2.2.2.1

/-! ## Claim C6 -/

/-- Disambiguation leaves a grouping list unchanged when every displayed name
in it occurs at most once. -/
theorem disambiguate_eq_self_of_unique (l : List PeopleGrouping)
    (h : ∀ g ∈ l, nameCount l g.person.displayName ≤ 1) :
    disambiguateDisplayNames l = l := by
  rw [disambiguateDisplayNames]
  calc l.map (disambiguateOne l)
      = l.map id := List.map_congr_left
        (fun g hg => disambiguateOne_of_unique l g (h g hg))
    _ = l := List.map_id l

/-- C6 counterexample: running disambiguation twice on three people named
"John" (×2) and "John (x)" changes the result again — the first pass turns
the two "John"s into "John (x)"/"John (y)", creating a new duplicate with the
real name "John (x)", and the second pass then appends identifiers once
more. -/
theorem disambiguation_not_idempotent_eval :
    disambiguateDisplayNames (disambiguateDisplayNames collidingGroupingsLast)
      ≠ disambiguateDisplayNames collidingGroupingsLast := by
  decide

/-- C6 (amended): disambiguation is idempotent on every grouping list whose
first pass produces displayed names that each occur at most once (which holds
whenever no real display name equals another grouping's suffixed name);
running it twice then produces no further change. -/
theorem disambiguate_idempotent_of_unique_names (gs : List PeopleGrouping)
    (h : ∀ g ∈ disambiguateDisplayNames gs,
        nameCount (disambiguateDisplayNames gs) g.person.displayName ≤ 1) :
    disambiguateDisplayNames (disambiguateDisplayNames gs) = disambiguateDisplayNames gs :=
  disambiguate_eq_self_of_unique (disambiguateDisplayNames gs) h

/-- C6 witness: the amended theorem applied to two people both named "John"
with identifiers `x` and `y`. -/
theorem disambiguate_idempotent_witness :
    disambiguateDisplayNames (disambiguateDisplayNames
        [mkOnePersonGrouping "John" "x", mkOnePersonGrouping "John" "y"])
      = disambiguateDisplayNames
        [mkOnePersonGrouping "John" "x", mkOnePersonGrouping "John" "y"] :=
  disambiguate_idempotent_of_unique_names
    [mkOnePersonGrouping "John" "x", mkOnePersonGrouping "John" "y"] (by decide)

/-! ## Claim C9 -/

/-- A successfully mapped image carries exactly the raw item's MIME type. -/
theorem mapToSharedImage_mimeType (now : String) (item : GraphDriveItem) (img : SharedImage)
    (h : mapToSharedImage now item = some img) :
    ∃ m, item.fileMimeType = some m ∧ img.mimeType = m := by
  unfold mapToSharedImage at h
  by_cases hc :
      (!truthyStr item.name || !truthyOptStr item.fileMimeType || !hasValidSharer item) = true
  · rw [if_pos hc] at h
    cases h
  · rw [if_neg hc] at h
    have hmime : truthyOptStr item.fileMimeType = true := by
      cases hmf : truthyOptStr item.fileMimeType with
      | true => rfl
      | false => exact absurd (by simp [hmf]) hc
    cases hf : item.fileMimeType with
    | none => rw [hf] at hmime; cases hmime
    | some m =>
      refine ⟨m, rfl, ?_⟩
      cases hsb : item.sharedBy with
      | none => rw [hsb] at h; cases h
      | some sb =>
        cases hu : sb.user with
        | none => simp [hsb, hu] at h
        | some u =>
          simp only [hsb, hu, Option.some.injEq] at h
          rw [← h]
          simp [hf]

/-- C9: the image filter retains exactly the items whose declared MIME type is
present, non-empty and starts with `"image/"`, as a subsequence of the input
(order preserved); and every `SharedImage` inside every grouping produced by
the full pipeline has a MIME type starting with `"image/"`. -/
theorem pipeline_mime_invariant (lc : String → String → Int) (now : String)
    (items : List GraphDriveItem) :
    (filterImagesByMime items).Sublist items
    ∧ (∀ item, item ∈ filterImagesByMime items ↔ item ∈ items ∧ imageFilterPred item = true)
    ∧ (∀ g ∈ (processGraphItems lc now items).groupings, ∀ img ∈ g.images,
        isImageMimeType img.mimeType = true) := by
  refine ⟨List.filter_sublist _, fun item => List.mem_filter, ?_⟩
  intro g hg img himg
  have hg' : g ∈ disambiguateDisplayNames
      (groupBySharer lc (mapItemsLoop now (filterImagesByMime items)).1) := hg
  rcases List.mem_map.mp hg' with ⟨g₀, hg₀, rfl⟩
  rw [disambiguateOne_images] at himg
  rcases (mem_groupBySharer lc _ g₀).mp hg₀ with ⟨k, _, rfl⟩
  rw [mkGrouping_images] at himg
  have himg' : img ∈ (mapItemsLoop now (filterImagesByMime items)).1 :=
    List.mem_of_mem_filter himg
  rw [mapItemsLoop_fst] at himg'
  rcases List.mem_filterMap.mp himg' with ⟨item, hitem, hmap⟩
  rcases mapToSharedImage_mimeType now item img hmap with ⟨m, hf, hm⟩
  have hpred : imageFilterPred item = true := (List.mem_filter.mp hitem).2
  unfold imageFilterPred at hpred
  rw [hf] at hpred
  rw [hm]
  simp only [Bool.and_eq_true] at hpred
  exact hpred.2

/-- C9 witness: the invariant theorem applied to a concrete mixed input (one
image item, one PDF item). -/
theorem pipeline_mime_invariant_witness :
    (filterImagesByMime [itemAlice, pdfItem]).Sublist [itemAlice, pdfItem] :=
  (pipeline_mime_invariant lcByLength "t" [itemAlice, pdfItem]).1

/-! ## Claim C7 -/

/-- C7: a failed refresh after any prior state dispatches `REFRESH_DATA`,
`SET_LOADING true`, then `SET_ERROR msg`; the resulting state keeps
`displayImages` and `availablePeople` at their previous values, sets `error`
to the non-null message, and ends with `isLoading = false`. -/
theorem refresh_failure_preserves_data (lc : String → String → Int) (now : String)
    (s : SelectionState) (msg : String) :
    (applyActions s (refreshDataActions lc now (.failed msg))).displayImages
        = s.displayImages
    ∧ (applyActions s (refreshDataActions lc now (.failed msg))).availablePeople
        = s.availablePeople
    ∧ (applyActions s (refreshDataActions lc now (.failed msg))).error = some msg
    ∧ (applyActions s (refreshDataActions lc now (.failed msg))).isLoading = false :=
  ⟨rfl, rfl, rfl, rfl⟩

/-! ## Claim C8 -/

/-- C8 counterexample: a PDF item with a perfectly valid name and sharer is
excluded by the pipeline (it has no image MIME type), yet the returned error
list is empty — items dropped by the MIME filter are recorded nowhere. -/
theorem mime_filtered_item_silently_dropped_eval :
    processGraphItems lcByLength "t" [pdfItem]
      = { groupings := [], allPeople := [], totalImages := 0, errors := [] }
    ∧ truthyStr pdfItem.name = true
    ∧ hasValidSharer pdfItem = true := by
  decide

/-- C8 (amended): only items that pass the image MIME filter but fail mapping
(missing name or invalid sharer) contribute one recorded entry each to the
returned error list, while processing continues for the remaining items;
items excluded by the MIME filter are dropped silently, without an error
entry. -/
theorem processGraphItems_error_accounting (lc : String → String → Int) (now : String)
    (items : List GraphDriveItem) :
    (processGraphItems lc now items).errors
      = (filterImagesByMime items).filterMap
          (fun item => if (mapToSharedImage now item).isSome then none
                       else some ("Failed to process item: " ++ item.id))
    ∧ (processGraphItems lc now items).totalImages
      = ((filterImagesByMime items).filterMap (mapToSharedImage now)).length := by
  refine ⟨?_, ?_⟩
  · show (mapItemsLoop now (filterImagesByMime items)).2 = _
    exact mapItemsLoop_snd now (filterImagesByMime items)
  · show (mapItemsLoop now (filterImagesByMime items)).1.length = _
    rw [mapItemsLoop_fst]

/-! ## Claim C10 -/

/-- C10 (code bug): `loadData` has no request token or sequence guard, so when
two refreshes overlap the reducer just applies whichever `SET_DATA` arrives
last.  This trace interleaves two refreshes — the first (Alice's data) is
superseded by a second (Bob's data) issued before it resolves, but the first
one's response arrives last — and the final `displayImages` reflects the
superseded first request, not the last-issued one. -/
theorem stale_refresh_result_applied_eval :
    (applyActions initialState
      ((refreshDataActions lcByLength "t" (.ok [itemAlice])).take 2
        ++ refreshDataActions lcByLength "t" (.ok [itemBob])
        ++ (refreshDataActions lcByLength "t" (.ok [itemAlice])).drop 2)).displayImages
      = flattenGroupings (processGraphItems lcByLength "t" [itemAlice]).groupings
    ∧ flattenGroupings (processGraphItems lcByLength "t" [itemAlice]).groupings
      ≠ flattenGroupings (processGraphItems lcByLength "t" [itemBob]).groupings := by
  decide

end MyFamApp
